import Mathlib

/-!
Shallow embedding of the payment API core (TypeScript sources under src/):
the status transition engine (`PaymentService.updatePaymentStatus`,
`PaymentService.isValidStatusTransition`), the idempotency middleware
(`checkIdempotency`, `storeIdempotencyResponse`), single payment creation
(`PaymentService.createPayment`), the batch orchestrator
(`BatchPaymentService.processBatch`, `processPaymentWithRetry`) and the
cursor-paginated listing (`PaymentService.listPayments`).

External collaborators (the Sequelize store, the crypto library) are
embedded as explicit state passing over Lean data (lists of rows) plus an
executable SHA-256; points where a store write can fail are modelled with
explicit failure-injection flags, mirroring the `await` suspension points
of the source.
-/

/-- Payment status: the closed set 'pending' | 'paid' | 'reversed'. -/
inductive Status where
  | pending
  | paid
  | reversed
deriving DecidableEq, Repr

/-- The type of `WebhookUpdateRequest.newStatus` in the source:
only 'paid' | 'reversed' are representable as a requested status. -/
inductive NewStatus where
  | paid
  | reversed
deriving DecidableEq, Repr

/-- Embed a requested status into the full status set. -/
def NewStatus.toStatus : NewStatus → Status
  | .paid => .paid
  | .reversed => .reversed

/-- Currency: the closed set 'USD' | 'ARS'. -/
inductive Currency where
  | usd
  | ars
deriving DecidableEq, Repr

/-- A row of the `payments` table (model `Payment`).  `createdAt` is kept as
a natural-number timestamp: the database datetime values (rendered as
ISO-8601 strings at the API boundary) are order-isomorphic to it. -/
structure Payment where
  id : String
  description : String
  dueDate : String
  amountCents : Int
  currency : Currency
  payerName : String
  payerEmail : String
  status : Status
  checkoutUrl : String
  idempotencyKey : String
  createdAt : Nat
deriving DecidableEq, Repr

/-- A row of the `payment_histories` table (model `PaymentHistory`).
`reason` is nullable in the schema, hence `Option String` here. -/
structure HistoryRow where
  paymentId : String
  oldStatus : Status
  newStatus : Status
  reason : Option String
deriving DecidableEq, Repr

/-- The typed webhook update request (`WebhookUpdateRequest`). -/
structure WebhookUpdateRequest where
  paymentId : String
  newStatus : NewStatus
  reason : Option String
deriving DecidableEq, Repr

/-- The errors `updatePaymentStatus` can surface: the two thrown `Error`s
of the source plus a store failure propagated from an awaited write. -/
inductive UpdateError where
  | notFound
  | invalidTransition (current : Status) (requested : NewStatus)
  | storeFailure
deriving DecidableEq, Repr

/-- The mutable durable state touched by the transition engine:
the `payments` and `payment_histories` tables. -/
structure PaymentStore where
  payments : List Payment
  histories : List HistoryRow
deriving DecidableEq, Repr

/-- `PaymentService.isValidStatusTransition`: the record
`pending -> ['paid'], paid -> ['reversed'], reversed -> []` followed by an
`includes` check. -/
def isValidStatusTransition (currentStatus : Status) (newStatus : NewStatus) : Bool :=
  match currentStatus with
  | .pending => newStatus == .paid
  | .paid => newStatus == .reversed
  | .reversed => false

/-- `PaymentService.updatePaymentStatus`.  `Payment.findByPk` is a lookup by
id; `payment.update` rewrites that row's status; `PaymentHistory.create`
appends one history row.  The two writes are issued sequentially with no
transaction; `historyWriteFails` injects a rejection of the awaited
`PaymentHistory.create` (the `payment.update` write having already been
applied at that point).  The function returns the outcome together with
the store state observable afterwards. -/
def updatePaymentStatus (st : PaymentStore) (request : WebhookUpdateRequest)
    (historyWriteFails : Bool) : Except UpdateError Unit × PaymentStore :=
  match st.payments.find? (fun p => p.id == request.paymentId) with
  | none => (Except.error UpdateError.notFound, st)
  | some payment =>
    if isValidStatusTransition payment.status request.newStatus then
      let oldStatus := payment.status
      let st1 : PaymentStore :=
        { st with payments := st.payments.map (fun p =>
            if p.id == request.paymentId then { p with status := request.newStatus.toStatus } else p) }
      if historyWriteFails then
        (Except.error UpdateError.storeFailure, st1)
      else
        (Except.ok (), { st1 with histories := st1.histories ++
          [{ paymentId := payment.id, oldStatus := oldStatus,
             newStatus := request.newStatus.toStatus,
             reason := some (request.reason.getD "") }] })
    else
      (Except.error (UpdateError.invalidTransition payment.status request.newStatus), st)

/-- C1: a status transition request succeeds exactly when the
(current, requested) pair is pending→paid or paid→reversed; every other
pair fails with InvalidTransition naming the current and requested status
and leaves the store untouched; an unknown payment id fails with NotFound
before any write. -/
theorem updatePaymentStatus_transition_rules
    (st : PaymentStore) (request : WebhookUpdateRequest) :
    (st.payments.find? (fun p => p.id == request.paymentId) = none →
      updatePaymentStatus st request false = (Except.error UpdateError.notFound, st))
    ∧ (∀ payment, st.payments.find? (fun p => p.id == request.paymentId) = some payment →
        ((updatePaymentStatus st request false).1 = Except.ok () ↔
          (payment.status = Status.pending ∧ request.newStatus = NewStatus.paid) ∨
          (payment.status = Status.paid ∧ request.newStatus = NewStatus.reversed))
        ∧ (isValidStatusTransition payment.status request.newStatus = false →
            updatePaymentStatus st request false =
              (Except.error (UpdateError.invalidTransition payment.status request.newStatus), st))) := by
  constructor
  · intro hfind
    simp [updatePaymentStatus, hfind]
  · intro payment hfind
    constructor
    · constructor
      · intro hok
        by_cases hv : isValidStatusTransition payment.status request.newStatus
        · cases hs : payment.status <;> cases hn : request.newStatus <;>
            simp_all [isValidStatusTransition]
        · simp [updatePaymentStatus, hfind, hv] at hok
      · intro hcase
        have hv : isValidStatusTransition payment.status request.newStatus = true := by
          rcases hcase with ⟨h1, h2⟩ | ⟨h1, h2⟩ <;> simp [isValidStatusTransition, h1, h2]
        simp [updatePaymentStatus, hfind, hv]
    · intro hv
      simp [updatePaymentStatus, hfind, hv]

/-- Concrete data for witnesses of the transition claims. -/
def examplePayment : Payment :=
  { id := "p1", description := "d", dueDate := "2026-01-01", amountCents := 100,
    currency := Currency.usd, payerName := "n", payerEmail := "e@x.com",
    status := Status.pending, checkoutUrl := "https://c/p1",
    idempotencyKey := "k1", createdAt := 1 }

def exampleStore : PaymentStore :=
  { payments := [examplePayment], histories := [] }

/-- Witness for C1, instantiated at a store holding one pending payment and
a pending→paid request. -/
theorem updatePaymentStatus_transition_rules_witness :
    (updatePaymentStatus exampleStore
        { paymentId := "p1", newStatus := NewStatus.paid, reason := none } false).1 =
      Except.ok () := by
  have h := (updatePaymentStatus_transition_rules exampleStore
      { paymentId := "p1", newStatus := NewStatus.paid, reason := none }).2
      examplePayment (by decide)
  exact h.1.mpr (Or.inl ⟨by decide, rfl⟩)

/-- C2 counterexample: at a concrete store holding one pending payment, a
pending→paid request whose history write fails leaves the payment's status
changed to paid while no history row was written — the two writes are not
applied as a single unit and the status IS left changed. -/
theorem updatePaymentStatus_not_atomic_counterexample :
    (updatePaymentStatus exampleStore
        { paymentId := "p1", newStatus := NewStatus.paid, reason := none } true).1 =
      Except.error UpdateError.storeFailure
    ∧ ((updatePaymentStatus exampleStore
        { paymentId := "p1", newStatus := NewStatus.paid, reason := none } true).2.payments.map
          (fun p => p.status)) = [Status.paid]
    ∧ (updatePaymentStatus exampleStore
        { paymentId := "p1", newStatus := NewStatus.paid, reason := none } true).2.histories = [] :=
  ⟨rfl, rfl, rfl⟩

/-- C2 amended: the status update and the history append are issued
sequentially without a transaction.  When both writes succeed, the status
is updated and exactly one history row capturing (old status, new status,
reason) is appended; but when the history write fails, the status update
remains applied and no history row is appended, so the two writes are not
a single logical unit. -/
theorem updatePaymentStatus_sequential_writes
    (st : PaymentStore) (request : WebhookUpdateRequest) (payment : Payment)
    (hfind : st.payments.find? (fun p => p.id == request.paymentId) = some payment)
    (hvalid : isValidStatusTransition payment.status request.newStatus = true) :
    (updatePaymentStatus st request false =
      (Except.ok (),
        { payments := st.payments.map (fun p =>
            if p.id == request.paymentId then { p with status := request.newStatus.toStatus } else p),
          histories := st.histories ++
            [{ paymentId := payment.id, oldStatus := payment.status,
               newStatus := request.newStatus.toStatus,
               reason := some (request.reason.getD "") }] }))
    ∧ (updatePaymentStatus st request true =
      (Except.error UpdateError.storeFailure,
        { payments := st.payments.map (fun p =>
            if p.id == request.paymentId then { p with status := request.newStatus.toStatus } else p),
          histories := st.histories })) := by
  constructor
  · simp [updatePaymentStatus, hfind, hvalid]
  · simp [updatePaymentStatus, hfind, hvalid]

/-- Witness for the amended C2 theorem at a concrete store and request. -/
theorem updatePaymentStatus_sequential_writes_witness :
    updatePaymentStatus exampleStore
        { paymentId := "p1", newStatus := NewStatus.paid, reason := some "r" } false =
      (Except.ok (),
        { payments := [{ examplePayment with status := Status.paid }],
          histories := [{ paymentId := "p1", oldStatus := Status.pending,
                          newStatus := Status.paid, reason := some "r" }] }) := by
  have h := (updatePaymentStatus_sequential_writes exampleStore
      { paymentId := "p1", newStatus := NewStatus.paid, reason := some "r" }
      examplePayment (by decide) (by decide)).1
  simpa using h

/-- C10: a successful transition request that omits the optional reason
writes its history row with reason equal to the empty string (present, not
null): `reason: request.reason || ''`. -/
theorem updatePaymentStatus_missing_reason_empty_string
    (st : PaymentStore) (request : WebhookUpdateRequest) (payment : Payment)
    (hfind : st.payments.find? (fun p => p.id == request.paymentId) = some payment)
    (hvalid : isValidStatusTransition payment.status request.newStatus = true)
    (hreason : request.reason = none) :
    (updatePaymentStatus st request false).2.histories =
      st.histories ++
        [{ paymentId := payment.id, oldStatus := payment.status,
           newStatus := request.newStatus.toStatus, reason := some "" }] := by
  simp [updatePaymentStatus, hfind, hvalid, hreason]

/-- Witness for C10 at a concrete store and a reason-less request. -/
theorem updatePaymentStatus_missing_reason_empty_string_witness :
    (updatePaymentStatus exampleStore
        { paymentId := "p1", newStatus := NewStatus.paid, reason := none } false).2.histories =
      [{ paymentId := "p1", oldStatus := Status.pending,
         newStatus := Status.paid, reason := some "" }] := by
  have h := updatePaymentStatus_missing_reason_empty_string exampleStore
      { paymentId := "p1", newStatus := NewStatus.paid, reason := none }
      examplePayment (by decide) (by decide) rfl
  simpa using h

/-- A JSON document as produced by parsing a request body.  Object fields
keep their textual order: JavaScript objects preserve insertion order and
`JSON.stringify` serializes fields in that order. -/
inductive Json where
  | str (s : String)
  | num (n : Int)
  | bool (b : Bool)
  | null
  | arr (elems : List Json)
  | obj (fields : List (String × Json))

/-- Escaping of a character inside a JSON string literal (quotes and
backslashes; the payloads in scope contain no control characters). -/
def jsonEscapeChar (c : Char) : String :=
  if c = '"' then "\\\"" else if c = '\\' then "\\\\" else String.singleton c

def jsonEscape (s : String) : String :=
  String.join (s.data.map jsonEscapeChar)

mutual

/-- `JSON.stringify` (default form: no whitespace, fields in object order). -/
def jsonStringify : Json → String
  | .str s => "\"" ++ jsonEscape s ++ "\""
  | .num n => toString n
  | .bool b => if b then "true" else "false"
  | .null => "null"
  | .arr es => "[" ++ jsonStringifyElems es ++ "]"
  | .obj fs => "\x7b" ++ jsonStringifyFields fs ++ "\x7d"

def jsonStringifyElems : List Json → String
  | [] => ""
  | [e] => jsonStringify e
  | e :: e2 :: es => jsonStringify e ++ "," ++ jsonStringifyElems (e2 :: es)

def jsonStringifyFields : List (String × Json) → String
  | [] => ""
  | [(k, v)] => "\"" ++ jsonEscape k ++ "\":" ++ jsonStringify v
  | (k, v) :: f :: fs =>
      "\"" ++ jsonEscape k ++ "\":" ++ jsonStringify v ++ "," ++ jsonStringifyFields (f :: fs)

end

/-- Split a list into consecutive chunks of size W (the last one possibly
shorter): the `payments.slice(i, i + W)` loop of `processBatch` and the
block split of SHA-256.  The source loop advances by W ≥ 1 (the worker
count is validated to be at least 1 by the configuration schema); the
recursion is driven by a list-length fuel so that the function is total
and computes by reduction. -/
def chunkListAux {α : Type} (W : Nat) : Nat → List α → List (List α)
  | _, [] => []
  | 0, rest => [rest]
  | fuel + 1, x :: xs => ((x :: xs).take W) :: chunkListAux W fuel ((x :: xs).drop W)

def chunkList {α : Type} (W : Nat) (l : List α) : List (List α) :=
  chunkListAux W l.length l

/-- Truncate to a 32-bit word. -/
def w32 (n : Nat) : Nat := n % 4294967296

/-- 32-bit rotate right. -/
def rotr32 (x n : Nat) : Nat := w32 ((x >>> n) ||| (x <<< (32 - n)))

def shaCh (x y z : Nat) : Nat := (x &&& y) ^^^ ((x ^^^ 4294967295) &&& z)

def shaMaj (x y z : Nat) : Nat := (x &&& y) ^^^ (x &&& z) ^^^ (y &&& z)

def shaS0 (x : Nat) : Nat := rotr32 x 2 ^^^ rotr32 x 13 ^^^ rotr32 x 22

def shaS1 (x : Nat) : Nat := rotr32 x 6 ^^^ rotr32 x 11 ^^^ rotr32 x 25

def shaG0 (x : Nat) : Nat := rotr32 x 7 ^^^ rotr32 x 18 ^^^ (x >>> 3)

def shaG1 (x : Nat) : Nat := rotr32 x 17 ^^^ rotr32 x 19 ^^^ (x >>> 10)

/-- The SHA-256 round constants. -/
def shaK : List Nat :=
  [1116352408, 1899447441, 3049323471, 3921009573, 961987163, 1508970993,
   2453635748, 2870763221, 3624381080, 310598401, 607225278, 1426881987,
   1925078388, 2162078206, 2614888103, 3248222580, 3835390401, 4022224774,
   264347078, 604807628, 770255983, 1249150122, 1555081692, 1996064986,
   2554220882, 2821834349, 2952996808, 3210313671, 3336571891, 3584528711,
   113926993, 338241895, 666307205, 773529912, 1294757372, 1396182291,
   1695183700, 1986661051, 2177026350, 2456956037, 2730485921, 2820302411,
   3259730800, 3345764771, 3516065817, 3600352804, 4094571909, 275423344,
   430227734, 506948616, 659060556, 883997877, 958139571, 1322822218,
   1537002063, 1747873779, 1955562222, 2024104815, 2227730452, 2361852424,
   2428436474, 2756734187, 3204031479, 3329325298]

/-- Pad a byte message to a multiple of 64 bytes (0x80, zeros, 64-bit
big-endian bit length). -/
def shaPad (msg : List Nat) : List Nat :=
  let bitLen := msg.length * 8
  let padZeros := (119 - (msg.length % 64)) % 64
  msg ++ [0x80] ++ List.replicate padZeros 0 ++
    (List.range 8).map (fun i => (bitLen >>> (8 * (7 - i))) % 256)

/-- Group bytes into big-endian 32-bit words. -/
def bytesToWords : List Nat → List Nat
  | b0 :: b1 :: b2 :: b3 :: rest =>
      ((b0 <<< 24) ||| (b1 <<< 16) ||| (b2 <<< 8) ||| b3) :: bytesToWords rest
  | _ => []

/-- Extend the 16 block words to the 64-entry message schedule. -/
def shaExtend (fuel : Nat) (ws : Array Nat) : Array Nat :=
  match fuel with
  | 0 => ws
  | f + 1 =>
      let t := ws.size
      shaExtend f (ws.push (w32 (shaG1 ws[t - 2]! + ws[t - 7]! + shaG0 ws[t - 15]! + ws[t - 16]!)))

structure ShaState where
  a : Nat
  b : Nat
  c : Nat
  d : Nat
  e : Nat
  f : Nat
  g : Nat
  h : Nat
deriving Repr

def shaRound (st : ShaState) (kw : Nat × Nat) : ShaState :=
  let t1 := w32 (st.h + shaS1 st.e + shaCh st.e st.f st.g + kw.1 + kw.2)
  let t2 := w32 (shaS0 st.a + shaMaj st.a st.b st.c)
  { a := w32 (t1 + t2), b := st.a, c := st.b, d := st.c,
    e := w32 (st.d + t1), f := st.e, g := st.f, h := st.g }

def shaCompress (st : ShaState) (block : List Nat) : ShaState :=
  let ws := (shaExtend 48 (bytesToWords block).toArray).toList
  let fin := (shaK.zip ws).foldl shaRound st
  { a := w32 (st.a + fin.a), b := w32 (st.b + fin.b), c := w32 (st.c + fin.c),
    d := w32 (st.d + fin.d), e := w32 (st.e + fin.e), f := w32 (st.f + fin.f),
    g := w32 (st.g + fin.g), h := w32 (st.h + fin.h) }

def shaInit : ShaState :=
  { a := 1779033703, b := 3144134277, c := 1013904242, d := 2773480762,
    e := 1359893119, f := 2600822924, g := 528734635, h := 1541459225 }

/-- SHA-256 of a byte message, as the eight 32-bit hash words. -/
def sha256Words (msg : List Nat) : List Nat :=
  let st := (chunkList 64 (shaPad msg)).foldl shaCompress shaInit
  [st.a, st.b, st.c, st.d, st.e, st.f, st.g, st.h]

def hexDigit (n : Nat) : Char :=
  if n < 10 then Char.ofNat (48 + n) else Char.ofNat (87 + n)

def wordToHex (w : Nat) : String :=
  String.mk ((List.range 8).map (fun i => hexDigit ((w >>> (4 * (7 - i))) % 16)))

/-- SHA-256 hex digest, `crypto.createHash('sha256').update(m).digest('hex')`. -/
def sha256Hex (msg : List Nat) : String :=
  String.join ((sha256Words msg).map wordToHex)

/-- Bytes of a string (the payloads in scope are ASCII, where UTF-8 bytes
and code points coincide). -/
def strBytes (s : String) : List Nat := s.data.map Char.toNat

/-- The request hash computed by `checkIdempotency`:
`sha256(JSON.stringify(req.body))` as a hex digest.  The body is hashed in
its given field order; no normalization is applied. -/
def requestHash (body : Json) : String := sha256Hex (strBytes (jsonStringify body))

set_option maxRecDepth 10000

/-- Sanity check of the SHA-256 embedding against the standard test
vector for "abc". -/
theorem sha256Hex_abc :
    sha256Hex (strBytes "abc") =
      "ba7816bf8f01cfea414140de5dae2223b00361a396177a9cb410ff61f20015ad" := by
  decide

/-- Hex digit per the character classes of the UUID regex (case-insensitive). -/
def isHexChar (c : Char) : Bool :=
  (48 ≤ c.toNat && c.toNat ≤ 57) || (97 ≤ c.toNat && c.toNat ≤ 102) ||
    (65 ≤ c.toNat && c.toNat ≤ 70)

/-- The UUID syntax check of `checkIdempotency`:
`/^[0-9a-f]{8}-[0-9a-f]{4}-[1-5][0-9a-f]{3}-[89ab][0-9a-f]{3}-[0-9a-f]{12}$/i`.
Position 14 is the version digit `[1-5]`, position 19 the variant
character `[89ab]` (case-insensitive). -/
def isUuid (s : String) : Bool :=
  let cs := s.data
  cs.length == 36 &&
    (List.range 36).all (fun i =>
      let c := cs.getD i ' '
      if i == 8 || i == 13 || i == 18 || i == 23 then c == '-'
      else if i == 14 then '1' ≤ c && c ≤ '5'
      else if i == 19 then c == '8' || c == '9' || c == 'a' || c == 'b' || c == 'A' || c == 'B'
      else isHexChar c)

/-- A row of the `idempotency_keys` table (model `IdempotencyKey`).
`responseData` holds the serialized response; since `JSON.parse` of
`JSON.stringify` returns the same document, the stored serialization is
modelled by the JSON document itself. -/
structure IdemRecord where
  key : String
  requestHash : String
  responseData : Json
  expiresAt : Nat

/-- Outcome of an express middleware: either it ends the request with
`res.status(s).json(body)` or it calls `next()` with the request annotated
by `idempotencyKey` and `requestHash`. -/
inductive MiddlewareOutcome where
  | respond (status : Nat) (body : Json)
  | next (idempotencyKey : String) (requestHash : String)

def missingKeyBody : Json :=
  Json.obj [("error", Json.str "Missing idempotency key"),
    ("details", Json.arr [Json.str "Idempotency-Key header is required"])]

def invalidKeyBody : Json :=
  Json.obj [("error", Json.str "Invalid idempotency key format"),
    ("details", Json.arr [Json.str "Idempotency key must be a valid UUID"])]

/-- The 409 body sent on a key conflict; it is a fixed document. -/
def conflictIdemBody : Json :=
  Json.obj [("error", Json.str "Idempotency key conflict"),
    ("details", Json.arr [Json.str "The provided idempotency key is already used with different data"])]

/-- `checkIdempotency`: a missing or empty header fails with 400 before
anything else (`!idempotencyKey` catches both absence and the empty
string); a malformed key fails with 400; then the SHA-256 hash of the
stringified body is compared against the record found by key: a matching
hash replays the cached response with 200, a differing hash responds 409,
no record falls through to `next()`.  The awaited store read is assumed to
resolve (its `catch` branch responds 500 and is outside the claims). -/
def checkIdempotency (records : List IdemRecord) (headerKey : Option String)
    (body : Json) : MiddlewareOutcome :=
  match headerKey with
  | none => MiddlewareOutcome.respond 400 missingKeyBody
  | some key =>
    if key == "" then MiddlewareOutcome.respond 400 missingKeyBody
    else if !(isUuid key) then MiddlewareOutcome.respond 400 invalidKeyBody
    else
      let hash := requestHash body
      match records.find? (fun r => r.key == key) with
      | some existingKey =>
          if existingKey.requestHash == hash then
            MiddlewareOutcome.respond 200 existingKey.responseData
          else
            MiddlewareOutcome.respond 409 conflictIdemBody
      | none => MiddlewareOutcome.next key hash

/-- `storeIdempotencyResponse`: appends a record with a 24-hour expiry;
a failing `IdempotencyKey.create` is swallowed (`catch` logs and returns),
leaving the table unchanged. -/
def storeIdempotencyResponse (records : List IdemRecord) (idempotencyKey requestHash : String)
    (responseData : Json) (now : Nat) (storeFails : Bool) : List IdemRecord :=
  if storeFails then records
  else records ++ [{ key := idempotencyKey, requestHash := requestHash,
                     responseData := responseData, expiresAt := now + 86400000 }]

/-- The `payer` object of a creation request. -/
structure Payer where
  name : String
  email : String
deriving DecidableEq, Repr

/-- `CreatePaymentRequest` (snake_case fields as received on the wire). -/
structure CreatePaymentRequest where
  description : String
  due_date : String
  amount_cents : Int
  currency : Currency
  payer : Payer
deriving DecidableEq, Repr

structure CreatePaymentResponse where
  paymentId : String
  status : Status
  checkoutUrl : String
deriving DecidableEq, Repr

def statusString : Status → String
  | .pending => "pending"
  | .paid => "paid"
  | .reversed => "reversed"

/-- The JSON document of a `CreatePaymentResponse` (field order as in the
object literal of the source). -/
def createRespToJson (r : CreatePaymentResponse) : Json :=
  Json.obj [("paymentId", Json.str r.paymentId),
    ("status", Json.str (statusString r.status)),
    ("checkoutUrl", Json.str r.checkoutUrl)]

/-- `PaymentService.createPayment`: generates an id (passed in as `newId`,
standing for `uuidv4()`), inserts one pending Payment, stores the
idempotency record for the response (best-effort), and returns the
response.  `now` is the row creation timestamp. -/
def createPayment (baseUrl : String) (payments : List Payment) (records : List IdemRecord)
    (request : CreatePaymentRequest) (idempotencyKey requestHash : String)
    (newId : String) (now : Nat) (storeFails : Bool) :
    CreatePaymentResponse × List Payment × List IdemRecord :=
  let checkoutUrl := baseUrl ++ "/" ++ newId
  let payment : Payment :=
    { id := newId, description := request.description, dueDate := request.due_date,
      amountCents := request.amount_cents, currency := request.currency,
      payerName := request.payer.name, payerEmail := request.payer.email,
      status := Status.pending, checkoutUrl := checkoutUrl,
      idempotencyKey := idempotencyKey, createdAt := now }
  let response : CreatePaymentResponse :=
    { paymentId := payment.id, status := payment.status, checkoutUrl := payment.checkoutUrl }
  (response, payments ++ [payment],
    storeIdempotencyResponse records idempotencyKey requestHash (createRespToJson response) now storeFails)

/-- The POST / pipeline for a (schema-valid) creation request:
`checkIdempotency` runs first; on `next()` the controller invokes
`createPayment` and responds 201 with the result.  The pair `(status,
body)` is the HTTP response; the two lists are the observable store
state. -/
def runCreate (baseUrl : String) (payments : List Payment) (records : List IdemRecord)
    (headerKey : Option String) (body : Json) (request : CreatePaymentRequest)
    (newId : String) (now : Nat) (storeFails : Bool) :
    (Nat × Json) × List Payment × List IdemRecord :=
  match checkIdempotency records headerKey body with
  | MiddlewareOutcome.respond s b => ((s, b), payments, records)
  | MiddlewareOutcome.next key hash =>
    let r := createPayment baseUrl payments records request key hash newId now storeFails
    ((201, createRespToJson r.1), r.2.1, r.2.2)

/-- Substring test: `pattern` occurs contiguously in `s`. -/
def strContains (s pattern : String) : Bool :=
  (List.range (s.data.length + 1)).any (fun i => pattern.data.isPrefixOf (s.data.drop i))

/-- C3 counterexample: the two payloads hold the same fields "a" and "b"
with the same values (they are permutations of one another), yet their
computed hashes differ — the hash is taken over the raw serialization,
which is field-order sensitive. -/
theorem requestHash_field_order_counterexample :
    List.Perm [("a", Json.num 1), ("b", Json.num 2)] [("b", Json.num 2), ("a", Json.num 1)]
    ∧ requestHash (Json.obj [("a", Json.num 1), ("b", Json.num 2)]) ≠
        requestHash (Json.obj [("b", Json.num 2), ("a", Json.num 1)]) := by
  constructor
  · exact List.Perm.swap _ _ _
  · decide

/-- C3 amended: the request hash is a deterministic function of the JSON
serialization of the payload in its given field order — payloads with the
same serialization always hash alike — but the payload is not normalized,
so the same fields in a different order can produce a different hash. -/
theorem requestHash_deterministic_in_serialization :
    (∀ b1 b2 : Json, jsonStringify b1 = jsonStringify b2 → requestHash b1 = requestHash b2)
    ∧ requestHash (Json.obj [("a", Json.num 1), ("b", Json.num 2)]) ≠
        requestHash (Json.obj [("b", Json.num 2), ("a", Json.num 1)]) := by
  refine ⟨fun b1 b2 h => ?_, by decide⟩
  simp [requestHash, h]

/-- Witness for the determinism half of the amended C3 theorem. -/
theorem requestHash_deterministic_in_serialization_witness :
    requestHash (Json.obj [("a", Json.num 1)]) = requestHash (Json.obj [("a", Json.num 1)]) :=
  requestHash_deterministic_in_serialization.1 _ _ rfl

/-- A key accepted by the UUID check is nonempty. -/
theorem key_ne_empty_of_isUuid (key : String) (h : isUuid key = true) : (key == "") = false := by
  cases hk : key == ""
  · rfl
  · exfalso
    have hkey : key = "" := by simpa using hk
    subst hkey
    exact absurd h (by decide)

/-- `find?` over an append skips a first part with no match. -/
theorem find?_append_of_none {α : Type} (p : α → Bool) (l1 l2 : List α)
    (h : l1.find? p = none) : (l1 ++ l2).find? p = l2.find? p := by
  induction l1 with
  | nil => rfl
  | cons a l ih =>
    cases hpa : p a
    · simp only [List.cons_append, List.find?_cons, hpa] at h ⊢
      exact ih h
    · simp [List.find?_cons, hpa] at h

/-- Replay path of `checkIdempotency`: record found, hashes agree. -/
theorem checkIdempotency_found_match (records : List IdemRecord) (key : String)
    (body : Json) (rec : IdemRecord) (huuid : isUuid key = true)
    (hfind : records.find? (fun r => r.key == key) = some rec)
    (hmatch : rec.requestHash = requestHash body) :
    checkIdempotency records (some key) body =
      MiddlewareOutcome.respond 200 rec.responseData := by
  simp [checkIdempotency, key_ne_empty_of_isUuid key huuid, huuid, hfind, hmatch]

/-- Conflict path of `checkIdempotency`: record found, hashes differ. -/
theorem checkIdempotency_found_conflict (records : List IdemRecord) (key : String)
    (body : Json) (rec : IdemRecord) (huuid : isUuid key = true)
    (hfind : records.find? (fun r => r.key == key) = some rec)
    (hne : rec.requestHash ≠ requestHash body) :
    checkIdempotency records (some key) body =
      MiddlewareOutcome.respond 409 conflictIdemBody := by
  simp [checkIdempotency, key_ne_empty_of_isUuid key huuid, huuid, hfind, hne]

/-- Fall-through path of `checkIdempotency`: no record for the key. -/
theorem checkIdempotency_not_found (records : List IdemRecord) (key : String)
    (body : Json) (huuid : isUuid key = true)
    (hfind : records.find? (fun r => r.key == key) = none) :
    checkIdempotency records (some key) body =
      MiddlewareOutcome.next key (requestHash body) := by
  simp [checkIdempotency, key_ne_empty_of_isUuid key huuid, huuid, hfind]

/-- C5: when the key is found and the stored hash equals the payload hash,
the middleware replays the cached response (status 200) without calling
`next()`, so the guarded operation never runs; consequently a valid
creation request submitted twice with the same key and identical payload
gets the same response body both times, and the second submission creates
no second Payment (the first created exactly one). -/
theorem idempotent_replay_returns_cached_response :
    (∀ (records : List IdemRecord) (key : String) (body : Json) (rec : IdemRecord),
      isUuid key = true →
      records.find? (fun r => r.key == key) = some rec →
      rec.requestHash = requestHash body →
      checkIdempotency records (some key) body =
        MiddlewareOutcome.respond 200 rec.responseData)
    ∧ (∀ (baseUrl : String) (payments : List Payment) (records : List IdemRecord)
        (key : String) (body : Json) (request : CreatePaymentRequest)
        (id1 id2 : String) (t1 t2 : Nat),
      isUuid key = true →
      records.find? (fun r => r.key == key) = none →
      (runCreate baseUrl
          (runCreate baseUrl payments records (some key) body request id1 t1 false).2.1
          (runCreate baseUrl payments records (some key) body request id1 t1 false).2.2
          (some key) body request id2 t2 false).1.2 =
        (runCreate baseUrl payments records (some key) body request id1 t1 false).1.2
      ∧ (runCreate baseUrl
          (runCreate baseUrl payments records (some key) body request id1 t1 false).2.1
          (runCreate baseUrl payments records (some key) body request id1 t1 false).2.2
          (some key) body request id2 t2 false).2.1 =
        (runCreate baseUrl payments records (some key) body request id1 t1 false).2.1
      ∧ (runCreate baseUrl payments records (some key) body request id1 t1 false).2.1.length =
          payments.length + 1) := by
  constructor
  · exact checkIdempotency_found_match
  · intro baseUrl payments records key body request id1 id2 t1 t2 huuid hfind
    have h1 : checkIdempotency records (some key) body =
        MiddlewareOutcome.next key (requestHash body) :=
      checkIdempotency_not_found records key body huuid hfind
    have hrun1 : runCreate baseUrl payments records (some key) body request id1 t1 false =
        ((201, createRespToJson (createPayment baseUrl payments records request key
            (requestHash body) id1 t1 false).1),
          (createPayment baseUrl payments records request key (requestHash body) id1 t1 false).2.1,
          (createPayment baseUrl payments records request key (requestHash body) id1 t1 false).2.2) := by
      simp [runCreate, h1]
    set resp1 := (createPayment baseUrl payments records request key
        (requestHash body) id1 t1 false).1 with hresp1
    have hrec : (createPayment baseUrl payments records request key
        (requestHash body) id1 t1 false).2.2 =
        records ++ [{ key := key, requestHash := requestHash body,
                      responseData := createRespToJson resp1, expiresAt := t1 + 86400000 }] := by
      simp [createPayment, storeIdempotencyResponse, hresp1]
    have hfind2 : ((createPayment baseUrl payments records request key
        (requestHash body) id1 t1 false).2.2).find? (fun r => r.key == key) =
        some { key := key, requestHash := requestHash body,
               responseData := createRespToJson resp1, expiresAt := t1 + 86400000 } := by
      rw [hrec, find?_append_of_none _ _ _ hfind]
      simp [List.find?]
    have h2 : checkIdempotency ((createPayment baseUrl payments records request key
        (requestHash body) id1 t1 false).2.2) (some key) body =
        MiddlewareOutcome.respond 200 (createRespToJson resp1) :=
      checkIdempotency_found_match _ key body _ huuid hfind2 rfl
    refine ⟨?_, ?_, ?_⟩
    · rw [hrun1]
      simp [runCreate, h2]
    · rw [hrun1]
      simp [runCreate, h2]
    · rw [hrun1]
      simp [createPayment]

/-- A concrete well-formed idempotency key (version 4, variant 8). -/
def exKey : String := "11111111-1111-4111-8111-111111111111"

def exBody : Json := Json.obj [("description", Json.str "d")]

def exCreateReq : CreatePaymentRequest :=
  { description := "d", due_date := "2026-01-01", amount_cents := 5,
    currency := Currency.usd, payer := { name := "n", email := "e@x.com" } }

def exRun1 : (Nat × Json) × List Payment × List IdemRecord :=
  runCreate "https://c" [] [] (some exKey) exBody exCreateReq "id1" 1 false

def exRun2 : (Nat × Json) × List Payment × List IdemRecord :=
  runCreate "https://c" exRun1.2.1 exRun1.2.2 (some exKey) exBody exCreateReq "id2" 2 false

/-- Witness for C5: the same creation request submitted twice with the same
key and payload gets the same body back and leaves exactly the one Payment
created by the first call. -/
theorem idempotent_replay_returns_cached_response_witness :
    exRun2.1.2 = exRun1.1.2 ∧ exRun2.2.1 = exRun1.2.1 ∧
      exRun1.2.1.length = ([] : List Payment).length + 1 := by
  have h := idempotent_replay_returns_cached_response.2 "https://c" [] [] exKey exBody
    exCreateReq "id1" "id2" 1 2 (by decide) rfl
  exact h

/-- C6 counterexample: with a stored record whose hash differs from the
request's hash, the 409 conflict response is the fixed generic body, and
the idempotency key does not occur anywhere in that body — the error does
not name the key. -/
theorem conflict_response_does_not_name_key_counterexample :
    checkIdempotency
        [{ key := exKey, requestHash := "deadbeef", responseData := Json.null, expiresAt := 0 }]
        (some exKey) (Json.obj [("a", Json.num 1)]) =
      MiddlewareOutcome.respond 409 conflictIdemBody
    ∧ strContains (jsonStringify conflictIdemBody) exKey = false := by
  constructor
  · exact checkIdempotency_found_conflict _ exKey _ _ (by decide) rfl (by decide)
  · decide

/-- C6 amended: when the key is found but the stored hash differs from the
payload hash, the middleware responds 409 with the fixed, generic
IdempotencyConflict body (which does not include the key), and the guarded
operation is not executed: the payments and idempotency tables are
unchanged. -/
theorem idempotency_conflict_generic_error :
    ∀ (records : List IdemRecord) (key : String) (body : Json) (rec : IdemRecord),
      isUuid key = true →
      records.find? (fun r => r.key == key) = some rec →
      rec.requestHash ≠ requestHash body →
      checkIdempotency records (some key) body =
        MiddlewareOutcome.respond 409 conflictIdemBody
      ∧ (∀ (baseUrl : String) (payments : List Payment) (request : CreatePaymentRequest)
          (newId : String) (now : Nat) (storeFails : Bool),
        runCreate baseUrl payments records (some key) body request newId now storeFails =
          ((409, conflictIdemBody), payments, records)) := by
  intro records key body rec huuid hfind hne
  have hconf := checkIdempotency_found_conflict records key body rec huuid hfind hne
  refine ⟨hconf, ?_⟩
  intro baseUrl payments request newId now storeFails
  simp [runCreate, hconf]

/-- Witness for the amended C6 theorem at a concrete store and request. -/
theorem idempotency_conflict_generic_error_witness :
    runCreate "https://c" []
        [{ key := exKey, requestHash := "deadbeef", responseData := Json.null, expiresAt := 0 }]
        (some exKey) (Json.obj [("a", Json.num 1)]) exCreateReq "id1" 1 false =
      ((409, conflictIdemBody), [],
        [{ key := exKey, requestHash := "deadbeef", responseData := Json.null, expiresAt := 0 }]) :=
  (idempotency_conflict_generic_error
    [{ key := exKey, requestHash := "deadbeef", responseData := Json.null, expiresAt := 0 }]
    exKey (Json.obj [("a", Json.num 1)]) _ (by decide) rfl (by decide)).2
    "https://c" [] exCreateReq "id1" 1 false

/-- The `error` member of a batch result slot. -/
structure BatchError where
  code : String
  message : String
deriving DecidableEq, Repr

/-- `BatchPaymentResult`: one slot of the batch response.  Optional members
of the TypeScript interface become `Option`s. -/
structure BatchPaymentResult where
  index : Nat
  paymentId : Option String
  status : Option Status
  error : Option BatchError
deriving DecidableEq, Repr

/-- `BatchPaymentResponse` (fields in the object-literal order of the
source: results, failed, succeeded). -/
structure BatchPaymentResponse where
  results : List BatchPaymentResult
  failed : Nat
  succeeded : Nat
deriving DecidableEq, Repr

/-- `BatchProcessingOptions`. -/
structure BatchOptions where
  maxConcurrentWorkers : Nat
  maxRetryAttempts : Nat
  retryDelayMs : Nat
deriving DecidableEq, Repr

/-- `lastError?.message || '...'`: the message recorded after the final
failed attempt; an absent error or an empty message falls back to the
fixed default. -/
def retryFailureMessage (lastError : Option String) : String :=
  match lastError with
  | some m => if m = "" then "Payment processing failed after all retry attempts" else m
  | none => "Payment processing failed after all retry attempts"

/-- The slot returned once every retry attempt has failed. -/
def mkRetryFailure (index : Nat) (lastError : Option String) : BatchPaymentResult :=
  { index := index, paymentId := none, status := none,
    error := some { code := "max_retries_exceeded",
                    message := retryFailureMessage lastError } }

/-- The retry loop of `processPaymentWithRetry`: `remaining` counts the
attempts still allowed (initially `maxRetryAttempts`), `attempt` is the
1-based attempt number, `lastError` the message of the latest rejection
and `delays` the backoff waits performed so far (a wait of
`retryDelayMs * attempt` is inserted only when `attempt <
maxRetryAttempts`, i.e. when further attempts remain).  `oracle attempt`
is the outcome of the awaited `paymentService.createPayment` call on that
attempt (the call receives a fresh `uuidv4()-index` key and the constant
hash 'batch-payment'; those are internal to the call and absorbed by the
oracle). -/
def retryGo (oracle : Nat → Except String CreatePaymentResponse) (retryDelayMs : Nat)
    (index : Nat) : Nat → Nat → Option String → List Nat → BatchPaymentResult × List Nat
  | 0, _, lastError, delays => (mkRetryFailure index lastError, delays)
  | remaining + 1, attempt, _, delays =>
    match oracle attempt with
    | Except.ok result =>
        ({ index := index, paymentId := some result.paymentId,
           status := some result.status, error := none }, delays)
    | Except.error m =>
        retryGo oracle retryDelayMs index remaining (attempt + 1) (some m)
          (if remaining > 0 then delays ++ [retryDelayMs * attempt] else delays)

/-- `BatchPaymentService.processPaymentWithRetry`, returning the slot
together with the list of backoff delays performed. -/
def processPaymentWithRetry (oracle : Nat → Except String CreatePaymentResponse)
    (maxRetryAttempts retryDelayMs : Nat) (index : Nat) : BatchPaymentResult × List Nat :=
  retryGo oracle retryDelayMs index maxRetryAttempts 1 none []

/-- A settled promise as delivered by `Promise.allSettled`. -/
inductive Settled (α : Type) where
  | fulfilled (value : α)
  | rejected (reason : Option String)

/-- The promise produced for one chunk item: `processPaymentWithRetry`
never rejects (every path returns a value), so the settled outcome is
always `fulfilled`. -/
def settleItem (oracle : Nat → Nat → Except String CreatePaymentResponse)
    (maxRetryAttempts retryDelayMs : Nat) (payment : CreatePaymentRequest)
    (index : Nat) : Settled BatchPaymentResult :=
  let _ := payment
  Settled.fulfilled (processPaymentWithRetry (oracle index) maxRetryAttempts retryDelayMs index).1

/-- The `chunkResults.forEach` body: a fulfilled promise contributes its
value at its global index; a rejected one contributes a
'processing_error' slot (`result.reason?.message || 'Unknown error
occurred'`). -/
def settledToResult (globalIndex : Nat) : Settled BatchPaymentResult → BatchPaymentResult
  | Settled.fulfilled v => v
  | Settled.rejected reason =>
      { index := globalIndex, paymentId := none, status := none,
        error := some { code := "processing_error",
                        message := match reason with
                                   | some m => if m = "" then "Unknown error occurred" else m
                                   | none => "Unknown error occurred" } }

/-- `chunk.map((payment, chunkIndex) => processPaymentWithRetry(payment,
i + chunkIndex))`: each item of the chunk is started with its global
index. -/
def mapChunk (oracle : Nat → Nat → Except String CreatePaymentResponse)
    (maxRetryAttempts retryDelayMs : Nat) (base : Nat) :
    List CreatePaymentRequest → List (Settled BatchPaymentResult)
  | [] => []
  | p :: ps => settleItem oracle maxRetryAttempts retryDelayMs p base ::
      mapChunk oracle maxRetryAttempts retryDelayMs (base + 1) ps

/-- Collect the settled chunk results into slots by global index
(`results[globalIndex] = ...`). -/
def collectSettled (base : Nat) : List (Settled BatchPaymentResult) → List BatchPaymentResult
  | [] => []
  | s :: ss => settledToResult base s :: collectSettled (base + 1) ss

/-- The chunk loop of `processBatch`: chunks in order, the slot list is
filled densely by global index (within a chunk, `Promise.allSettled`
reports outcomes in input order regardless of completion order). -/
def processChunks (oracle : Nat → Nat → Except String CreatePaymentResponse)
    (maxRetryAttempts retryDelayMs : Nat) :
    List (List CreatePaymentRequest) → Nat → List BatchPaymentResult
  | [], _ => []
  | c :: cs, base =>
      collectSettled base (mapChunk oracle maxRetryAttempts retryDelayMs base c) ++
        processChunks oracle maxRetryAttempts retryDelayMs cs (base + c.length)

/-- JSON document of a batch slot; `JSON.stringify` omits the undefined
optional members. -/
def batchResultToJson (r : BatchPaymentResult) : Json :=
  Json.obj ([("index", Json.num (Int.ofNat r.index))]
    ++ (match r.paymentId with
        | some pid => [("paymentId", Json.str pid)]
        | none => [])
    ++ (match r.status with
        | some s => [("status", Json.str (statusString s))]
        | none => [])
    ++ (match r.error with
        | some e => [("error", Json.obj [("code", Json.str e.code),
                                         ("message", Json.str e.message)])]
        | none => []))

def batchRespToJson (results : List BatchPaymentResult) (failed succeeded : Nat) : Json :=
  Json.obj [("results", Json.arr (results.map batchResultToJson)),
    ("failed", Json.num (Int.ofNat failed)),
    ("succeeded", Json.num (Int.ofNat succeeded))]

/-- `BatchPaymentService.processBatch`: rejects batches over 100 items
before touching anything; otherwise processes the chunked items, counts
succeeded/failed slots (a slot with an `error` member counts as failed),
stores the response under the batch idempotency key (best-effort) and
returns it. -/
def processBatch (oracle : Nat → Nat → Except String CreatePaymentResponse)
    (opts : BatchOptions) (payments : List CreatePaymentRequest)
    (records : List IdemRecord) (idempotencyKey requestHash : String)
    (now : Nat) (storeFails : Bool) :
    Except String (BatchPaymentResponse × List IdemRecord) :=
  if payments.length > 100 then
    Except.error "Maximum 100 payments allowed per batch"
  else
    let results := processChunks oracle opts.maxRetryAttempts opts.retryDelayMs
      (chunkList opts.maxConcurrentWorkers payments) 0
    let succeeded := results.countP (fun r => r.error.isNone)
    let failed := results.countP (fun r => r.error.isSome)
    let response : BatchPaymentResponse :=
      { results := results, failed := failed, succeeded := succeeded }
    Except.ok (response,
      storeIdempotencyResponse records idempotencyKey requestHash
        (batchRespToJson results failed succeeded) now storeFails)

/-- The slot computed for global index i (the payment itself enters only
through the oracle). -/
def itemResult (oracle : Nat → Nat → Except String CreatePaymentResponse)
    (maxRetryAttempts retryDelayMs : Nat) (i : Nat) : BatchPaymentResult :=
  (processPaymentWithRetry (oracle i) maxRetryAttempts retryDelayMs i).1

/-- The slots for n consecutive indices starting at base. -/
def resultsFrom (oracle : Nat → Nat → Except String CreatePaymentResponse)
    (maxRetryAttempts retryDelayMs : Nat) : Nat → Nat → List BatchPaymentResult
  | _, 0 => []
  | base, n + 1 => itemResult oracle maxRetryAttempts retryDelayMs base ::
      resultsFrom oracle maxRetryAttempts retryDelayMs (base + 1) n

theorem collectSettled_mapChunk (oracle : Nat → Nat → Except String CreatePaymentResponse)
    (maxRetryAttempts retryDelayMs : Nat) :
    ∀ (c : List CreatePaymentRequest) (base : Nat),
      collectSettled base (mapChunk oracle maxRetryAttempts retryDelayMs base c) =
        resultsFrom oracle maxRetryAttempts retryDelayMs base c.length := by
  intro c
  induction c with
  | nil => intro base; rfl
  | cons p ps ih =>
    intro base
    simp only [mapChunk, collectSettled, List.length_cons, resultsFrom, settleItem,
      settledToResult, itemResult]
    exact congrArg _ (ih (base + 1))

theorem resultsFrom_append (oracle : Nat → Nat → Except String CreatePaymentResponse)
    (maxRetryAttempts retryDelayMs : Nat) :
    ∀ (a b base : Nat),
      resultsFrom oracle maxRetryAttempts retryDelayMs base a ++
          resultsFrom oracle maxRetryAttempts retryDelayMs (base + a) b =
        resultsFrom oracle maxRetryAttempts retryDelayMs base (a + b) := by
  intro a
  induction a with
  | zero => intro b base; simp [resultsFrom]
  | succ a ih =>
    intro b base
    rw [show a + 1 + b = (a + b) + 1 from by omega]
    simp only [resultsFrom, List.cons_append]
    rw [show base + (a + 1) = (base + 1) + a from by omega]
    exact congrArg _ (ih b (base + 1))

theorem processChunks_chunkListAux (oracle : Nat → Nat → Except String CreatePaymentResponse)
    (maxRetryAttempts retryDelayMs W : Nat) (hW : 0 < W) :
    ∀ (fuel : Nat) (l : List CreatePaymentRequest) (base : Nat), l.length ≤ fuel →
      processChunks oracle maxRetryAttempts retryDelayMs (chunkListAux W fuel l) base =
        resultsFrom oracle maxRetryAttempts retryDelayMs base l.length := by
  intro fuel
  induction fuel with
  | zero =>
    intro l base h
    have hl : l = [] := List.eq_nil_of_length_eq_zero (Nat.le_zero.mp h)
    subst hl
    rfl
  | succ fuel ih =>
    intro l base h
    cases l with
    | nil => rfl
    | cons x xs =>
      simp only [chunkListAux, processChunks]
      rw [collectSettled_mapChunk, List.length_take,
        ih ((x :: xs).drop W) (base + min W (x :: xs).length)
          (by simp only [List.length_drop]; omega),
        List.length_drop, resultsFrom_append]
      exact congrArg _ (by omega)

theorem resultsFrom_length (oracle : Nat → Nat → Except String CreatePaymentResponse)
    (maxRetryAttempts retryDelayMs : Nat) :
    ∀ (n base : Nat),
      (resultsFrom oracle maxRetryAttempts retryDelayMs base n).length = n := by
  intro n
  induction n with
  | zero => intro base; rfl
  | succ n ih => intro base; simp [resultsFrom, ih]

theorem resultsFrom_get (oracle : Nat → Nat → Except String CreatePaymentResponse)
    (maxRetryAttempts retryDelayMs : Nat) :
    ∀ (n base i : Nat)
      (h : i < (resultsFrom oracle maxRetryAttempts retryDelayMs base n).length),
      (resultsFrom oracle maxRetryAttempts retryDelayMs base n).get ⟨i, h⟩ =
        itemResult oracle maxRetryAttempts retryDelayMs (base + i) := by
  intro n
  induction n with
  | zero =>
    intro base i h
    simp [resultsFrom_length] at h
  | succ n ih =>
    intro base i h
    cases i with
    | zero => simp [resultsFrom]
    | succ j =>
      have hj : j < (resultsFrom oracle maxRetryAttempts retryDelayMs (base + 1) n).length := by
        simp only [resultsFrom_length]
        have := h
        simp only [resultsFrom_length] at this
        omega
      calc (resultsFrom oracle maxRetryAttempts retryDelayMs base (n + 1)).get ⟨j + 1, h⟩ =
            (resultsFrom oracle maxRetryAttempts retryDelayMs (base + 1) n).get ⟨j, hj⟩ := rfl
        _ = itemResult oracle maxRetryAttempts retryDelayMs ((base + 1) + j) := ih (base + 1) j hj
        _ = itemResult oracle maxRetryAttempts retryDelayMs (base + (j + 1)) := by
              exact congrArg _ (by omega)

theorem mem_resultsFrom (oracle : Nat → Nat → Except String CreatePaymentResponse)
    (maxRetryAttempts retryDelayMs : Nat) :
    ∀ (n base : Nat) (r : BatchPaymentResult),
      r ∈ resultsFrom oracle maxRetryAttempts retryDelayMs base n →
      ∃ i, i < n ∧ r = itemResult oracle maxRetryAttempts retryDelayMs (base + i) := by
  intro n
  induction n with
  | zero => intro base r hr; simp [resultsFrom] at hr
  | succ n ih =>
    intro base r hr
    simp only [resultsFrom, List.mem_cons] at hr
    rcases hr with hr | hr
    · exact ⟨0, by omega, by simpa using hr⟩
    · rcases ih (base + 1) r hr with ⟨i, hi, hr2⟩
      exact ⟨i + 1, by omega, by rw [hr2]; exact congrArg _ (by omega)⟩

theorem retryGo_index (oracle : Nat → Except String CreatePaymentResponse)
    (retryDelayMs index : Nat) :
    ∀ (remaining attempt : Nat) (lastError : Option String) (delays : List Nat),
      (retryGo oracle retryDelayMs index remaining attempt lastError delays).1.index = index := by
  intro remaining
  induction remaining with
  | zero => intro attempt lastError delays; rfl
  | succ remaining ih =>
    intro attempt lastError delays
    cases h : oracle attempt with
    | ok r => simp [retryGo, h]
    | error m => simp only [retryGo, h]; exact ih _ _ _

theorem retryGo_shape (oracle : Nat → Except String CreatePaymentResponse)
    (retryDelayMs index : Nat) :
    ∀ (remaining attempt : Nat) (lastError : Option String) (delays : List Nat),
      (∃ pid st, (retryGo oracle retryDelayMs index remaining attempt lastError delays).1 =
        { index := index, paymentId := some pid, status := some st, error := none })
      ∨ (∃ e, (retryGo oracle retryDelayMs index remaining attempt lastError delays).1 =
        { index := index, paymentId := none, status := none, error := some e }) := by
  intro remaining
  induction remaining with
  | zero =>
    intro attempt lastError delays
    exact Or.inr ⟨_, rfl⟩
  | succ remaining ih =>
    intro attempt lastError delays
    cases h : oracle attempt with
    | ok r => exact Or.inl ⟨r.paymentId, r.status, by simp [retryGo, h]⟩
    | error m => simpa only [retryGo, h] using ih _ _ _

theorem countP_error_split (l : List BatchPaymentResult) :
    l.countP (fun r => r.error.isNone) + l.countP (fun r => r.error.isSome) = l.length := by
  induction l with
  | nil => rfl
  | cons a l ih =>
    cases ha : a.error <;> simp [List.countP_cons, ha] <;> omega

/-- C9: for every oracle, options, payment and index,
`processPaymentWithRetry` settles fulfilled — never rejected — with a
result carrying that index and either a paymentId with a status (no
error) or an error object (no paymentId/status); hence the `rejected`
branch of the per-chunk settlement handling in `processBatch` is
unreachable. -/
theorem processPaymentWithRetry_always_fulfills
    (oracle : Nat → Nat → Except String CreatePaymentResponse)
    (maxRetryAttempts retryDelayMs : Nat) (payment : CreatePaymentRequest) (index : Nat) :
    ∃ r, settleItem oracle maxRetryAttempts retryDelayMs payment index = Settled.fulfilled r
      ∧ r.index = index
      ∧ ((∃ pid st, r = { index := index, paymentId := some pid,
                          status := some st, error := none })
         ∨ (∃ e, r = { index := index, paymentId := none,
                       status := none, error := some e })) :=
  ⟨(processPaymentWithRetry (oracle index) maxRetryAttempts retryDelayMs index).1, rfl,
    retryGo_index (oracle index) retryDelayMs index maxRetryAttempts 1 none [],
    retryGo_shape (oracle index) retryDelayMs index maxRetryAttempts 1 none []⟩

/-- C4: a batch of at most 100 items (with the validated worker count
W ≥ 1; with W = 0 the source loop would never terminate) always produces
a response — whatever the per-item outcomes, so item failures never fail
the batch — whose slot list has one entry per input item, whose succeeded
and failed counts sum to the input length, and whose i-th slot is exactly
the outcome of processing the i-th item, carrying index i. -/
theorem processBatch_aggregation
    (oracle : Nat → Nat → Except String CreatePaymentResponse) (opts : BatchOptions)
    (payments : List CreatePaymentRequest) (records : List IdemRecord)
    (idempotencyKey requestHash2 : String) (now : Nat) (storeFails : Bool)
    (hW : 0 < opts.maxConcurrentWorkers) (hlen : payments.length ≤ 100) :
    ∃ resp records2,
      processBatch oracle opts payments records idempotencyKey requestHash2 now storeFails =
        Except.ok (resp, records2)
      ∧ resp.results.length = payments.length
      ∧ resp.succeeded + resp.failed = payments.length
      ∧ ∀ i (h : i < resp.results.length),
          resp.results.get ⟨i, h⟩ =
            (processPaymentWithRetry (oracle i) opts.maxRetryAttempts opts.retryDelayMs i).1
          ∧ (resp.results.get ⟨i, h⟩).index = i := by
  have hchunks : processChunks oracle opts.maxRetryAttempts opts.retryDelayMs
      (chunkList opts.maxConcurrentWorkers payments) 0 =
      resultsFrom oracle opts.maxRetryAttempts opts.retryDelayMs 0 payments.length :=
    processChunks_chunkListAux oracle opts.maxRetryAttempts opts.retryDelayMs
      opts.maxConcurrentWorkers hW payments.length payments 0 (Nat.le_refl _)
  have hnot : ¬ (payments.length > 100) := by omega
  set rs := resultsFrom oracle opts.maxRetryAttempts opts.retryDelayMs 0 payments.length
    with hrs
  refine ⟨{ results := rs, failed := rs.countP (fun r => r.error.isSome),
            succeeded := rs.countP (fun r => r.error.isNone) },
    storeIdempotencyResponse records idempotencyKey requestHash2
      (batchRespToJson rs (rs.countP (fun r => r.error.isSome))
        (rs.countP (fun r => r.error.isNone))) now storeFails,
    ?_, ?_, ?_, ?_⟩
  · simp only [processBatch, hchunks, if_neg hnot]
  · rw [hrs, resultsFrom_length]
  · rw [countP_error_split, hrs, resultsFrom_length]
  · intro i h
    rw [hrs] at h
    constructor
    · have := resultsFrom_get oracle opts.maxRetryAttempts opts.retryDelayMs
        payments.length 0 i h
      simpa [itemResult, hrs] using this
    · have hg := resultsFrom_get oracle opts.maxRetryAttempts opts.retryDelayMs
        payments.length 0 i h
      have hidx := retryGo_index (oracle (0 + i)) opts.retryDelayMs (0 + i)
        opts.maxRetryAttempts 1 none []
      simp only [hrs]
      rw [hg]
      simpa [itemResult, processPaymentWithRetry] using hidx

/-- Witness for C4: a concrete two-item batch (one item succeeds, one
fails every attempt) processed with two workers. -/
theorem processBatch_aggregation_witness :
    ∃ resp records2,
      processBatch
          (fun i _ => if i == 0
            then Except.ok { paymentId := "pid0", status := Status.pending,
                             checkoutUrl := "https://c/pid0" }
            else Except.error "boom")
          { maxConcurrentWorkers := 2, maxRetryAttempts := 3, retryDelayMs := 100 }
          [exCreateReq, exCreateReq] [] exKey "h" 1 false =
        Except.ok (resp, records2)
      ∧ resp.results.length = ([exCreateReq, exCreateReq] : List CreatePaymentRequest).length
      ∧ resp.succeeded + resp.failed = ([exCreateReq, exCreateReq] : List CreatePaymentRequest).length
      ∧ ∀ i (h : i < resp.results.length),
          resp.results.get ⟨i, h⟩ =
            (processPaymentWithRetry
              ((fun i _ => if i == 0
                then Except.ok { paymentId := "pid0", status := Status.pending,
                                 checkoutUrl := "https://c/pid0" }
                else Except.error "boom") i) 3 100 i).1
          ∧ (resp.results.get ⟨i, h⟩).index = i :=
  processBatch_aggregation _ _ _ _ _ _ _ _ (by decide) (by decide)

theorem retryFailureMessage_ne_empty (lastError : Option String) :
    retryFailureMessage lastError ≠ "" := by
  cases lastError with
  | none => simp [retryFailureMessage]
  | some m =>
    by_cases hm : m = "" <;> simp [retryFailureMessage, hm]

theorem retryGo_all_fail (msgs : Nat → String) (retryDelayMs index : Nat) :
    ∀ (remaining attempt : Nat) (lastError : Option String) (delays : List Nat),
      1 ≤ remaining →
      retryGo (fun a => Except.error (msgs a)) retryDelayMs index
          remaining attempt lastError delays =
        (mkRetryFailure index (some (msgs (attempt + remaining - 1))),
         delays ++ (List.range (remaining - 1)).map (fun k => retryDelayMs * (attempt + k))) := by
  intro remaining
  induction remaining with
  | zero => intro attempt lastError delays h; omega
  | succ r ih =>
    intro attempt lastError delays _
    cases r with
    | zero =>
      simp [retryGo]
    | succ r2 =>
      have hr : 1 ≤ r2 + 1 := by omega
      have hstep : retryGo (fun a => Except.error (msgs a)) retryDelayMs index (r2 + 1 + 1)
          attempt lastError delays =
            retryGo (fun a => Except.error (msgs a)) retryDelayMs index (r2 + 1) (attempt + 1)
              (some (msgs attempt))
              (if r2 + 1 > 0 then delays ++ [retryDelayMs * attempt] else delays) := rfl
      rw [hstep, if_pos (by omega : r2 + 1 > 0), ih (attempt + 1) (some (msgs attempt))
        (delays ++ [retryDelayMs * attempt]) hr]
      simp only [Prod.mk.injEq]
      refine ⟨?_, ?_⟩
      · exact congrArg (fun n => mkRetryFailure index (some (msgs n))) (by omega)
      · rw [List.append_assoc]
        refine congrArg (fun l => delays ++ l) ?_
        rw [List.singleton_append,
          show r2 + 1 + 1 - 1 = (r2 + 1 - 1) + 1 from by omega,
          List.range_succ_eq_map, List.map_cons, List.map_map]
        simp only [List.cons.injEq]
        refine ⟨?_, ?_⟩
        · exact congrArg (fun n => retryDelayMs * n) (by omega)
        · refine List.map_congr_left ?_
          intro k _
          simp only [Function.comp]
          exact congrArg (fun n => retryDelayMs * n) (by omega)

theorem retryGo_all_fail_error (oracle : Nat → Except String CreatePaymentResponse)
    (hfail : ∀ attempt, ∃ m, oracle attempt = Except.error m)
    (retryDelayMs index : Nat) :
    ∀ (remaining attempt : Nat) (lastError : Option String) (delays : List Nat),
      ∃ e, (retryGo oracle retryDelayMs index remaining attempt lastError delays).1.error =
          some e ∧ e.message ≠ "" := by
  intro remaining
  induction remaining with
  | zero =>
    intro attempt lastError delays
    exact ⟨_, rfl, retryFailureMessage_ne_empty lastError⟩
  | succ r ih =>
    intro attempt lastError delays
    rcases hfail attempt with ⟨m, hm⟩
    simp only [retryGo, hm]
    exact ih _ _ _

/-- C7: an item whose creation call fails on every attempt is retried for
`maxRetryAttempts` total attempts with a wait of `retryDelayMs × attempt`
(linear backoff) between consecutive attempts and no wait after the last
one; its slot then records the 'max_retries_exceeded' error with a
non-empty message.  A batch (with validated worker count W ≥ 1) in which
every item fails permanently yields succeeded = 0, failed = items.length
and a non-empty error message in every slot, without failing the batch. -/
theorem retry_linear_backoff_and_exhausted_batch :
    (∀ (msgs : Nat → String) (retryDelayMs maxRetryAttempts index : Nat),
      1 ≤ maxRetryAttempts →
      processPaymentWithRetry (fun attempt => Except.error (msgs attempt))
          maxRetryAttempts retryDelayMs index =
        (mkRetryFailure index (some (msgs maxRetryAttempts)),
         (List.range (maxRetryAttempts - 1)).map (fun k => retryDelayMs * (1 + k))))
    ∧ (∀ (oracle : Nat → Nat → Except String CreatePaymentResponse) (opts : BatchOptions)
        (payments : List CreatePaymentRequest) (records : List IdemRecord)
        (idempotencyKey requestHash2 : String) (now : Nat) (storeFails : Bool),
      0 < opts.maxConcurrentWorkers →
      (∀ i attempt, ∃ m, oracle i attempt = Except.error m) →
      payments.length ≤ 100 →
      ∃ resp records2,
        processBatch oracle opts payments records idempotencyKey requestHash2 now storeFails =
          Except.ok (resp, records2)
        ∧ resp.succeeded = 0
        ∧ resp.failed = payments.length
        ∧ ∀ r ∈ resp.results, ∃ e, r.error = some e ∧ e.message ≠ "") := by
  constructor
  · intro msgs retryDelayMs maxRetryAttempts index h
    rw [processPaymentWithRetry,
      retryGo_all_fail msgs retryDelayMs index maxRetryAttempts 1 none [] h,
      List.nil_append]
    simp only [Prod.mk.injEq, and_true]
    exact congrArg (fun n => mkRetryFailure index (some (msgs n))) (by omega)
  · intro oracle opts payments records idempotencyKey requestHash2 now storeFails hW hfail hlen
    have hchunks : processChunks oracle opts.maxRetryAttempts opts.retryDelayMs
        (chunkList opts.maxConcurrentWorkers payments) 0 =
        resultsFrom oracle opts.maxRetryAttempts opts.retryDelayMs 0 payments.length :=
      processChunks_chunkListAux oracle opts.maxRetryAttempts opts.retryDelayMs
        opts.maxConcurrentWorkers hW payments.length payments 0 (Nat.le_refl _)
    have hnot : ¬ (payments.length > 100) := by omega
    set rs := resultsFrom oracle opts.maxRetryAttempts opts.retryDelayMs 0 payments.length
      with hrs
    have herr : ∀ r ∈ rs, ∃ e, r.error = some e ∧ e.message ≠ "" := by
      intro r hr
      rw [hrs] at hr
      rcases mem_resultsFrom oracle opts.maxRetryAttempts opts.retryDelayMs
        payments.length 0 r hr with ⟨i, _, hi⟩
      rw [hi]
      exact retryGo_all_fail_error (oracle (0 + i)) (hfail (0 + i))
        opts.retryDelayMs (0 + i) opts.maxRetryAttempts 1 none []
    refine ⟨{ results := rs, failed := rs.countP (fun r => r.error.isSome),
              succeeded := rs.countP (fun r => r.error.isNone) },
      storeIdempotencyResponse records idempotencyKey requestHash2
        (batchRespToJson rs (rs.countP (fun r => r.error.isSome))
          (rs.countP (fun r => r.error.isNone))) now storeFails,
      ?_, ?_, ?_, ?_⟩
    · simp only [processBatch, hchunks, if_neg hnot]
    · refine List.countP_eq_zero.mpr ?_
      intro r hr
      rcases herr r hr with ⟨e, he, _⟩
      simp [he]
    · rw [List.countP_eq_length.mpr, hrs, resultsFrom_length]
      intro r hr
      rcases herr r hr with ⟨e, he, _⟩
      simp [he]
    · exact herr

/-- Witness for C7: three all-failing attempts at delay 100 produce the
exhausted-retries slot and the backoff waits [100, 200]; the one-item
all-failing batch reports 0 succeeded, 1 failed, non-empty messages. -/
theorem retry_linear_backoff_and_exhausted_batch_witness :
    processPaymentWithRetry (fun _ => Except.error "boom") 3 100 0 =
      (mkRetryFailure 0 (some "boom"), [100, 200])
    ∧ ∃ resp records2,
        processBatch (fun _ _ => Except.error "boom")
            { maxConcurrentWorkers := 2, maxRetryAttempts := 3, retryDelayMs := 100 }
            [exCreateReq] [] exKey "h" 1 false =
          Except.ok (resp, records2)
        ∧ resp.succeeded = 0
        ∧ resp.failed = 1
        ∧ ∀ r ∈ resp.results, ∃ e, r.error = some e ∧ e.message ≠ "" := by
  constructor
  · exact (retry_linear_backoff_and_exhausted_batch.1 (fun _ => "boom") 100 3 0
      (by decide)).trans (by decide)
  · have h := retry_linear_backoff_and_exhausted_batch.2 (fun _ _ => Except.error "boom")
      { maxConcurrentWorkers := 2, maxRetryAttempts := 3, retryDelayMs := 100 }
      [exCreateReq] [] exKey "h" 1 false (by decide) (fun _ _ => ⟨"boom", rfl⟩) (by decide)
    simpa using h

/-- The ordering used by the listing query: creation timestamp
descending (`order: [['createdAt', 'DESC']]`). -/
def createdDesc (a b : Payment) : Prop := b.createdAt ≤ a.createdAt

instance : DecidableRel createdDesc :=
  fun a b => inferInstanceAs (Decidable (b.createdAt ≤ a.createdAt))

instance : IsTotal Payment createdDesc :=
  ⟨fun a b => Nat.le_total b.createdAt a.createdAt⟩

instance : IsTrans Payment createdDesc :=
  ⟨fun _ _ _ hab hbc => Nat.le_trans hbc hab⟩

/-- `ListPaymentsQuery`; the cursor is kept as the parsed timestamp
(`new Date(query.cursor)`), order-isomorphic to its ISO-8601 form. -/
structure ListPaymentsQuery where
  status : Option Status
  limit : Option Nat
  cursor : Option Nat
deriving DecidableEq, Repr

/-- An entry of `ListPaymentsResponse.items`.  `createdAt` carries the
row timestamp (rendered as a non-empty ISO-8601 string at the boundary). -/
structure ListItem where
  id : String
  description : String
  dueDate : String
  amountCents : Int
  currency : Currency
  payerName : String
  payerEmail : String
  status : Status
  checkoutUrl : String
  createdAt : Nat
deriving DecidableEq, Repr

def toListItem (p : Payment) : ListItem :=
  { id := p.id, description := p.description, dueDate := p.dueDate,
    amountCents := p.amountCents, currency := p.currency,
    payerName := p.payerName, payerEmail := p.payerEmail,
    status := p.status, checkoutUrl := p.checkoutUrl, createdAt := p.createdAt }

structure ListPaymentsResponse where
  items : List ListItem
  nextCursor : Option Nat
deriving DecidableEq, Repr

/-- `Math.min(query.limit || 20, 100)`: an absent — or zero, since 0 is
falsy in JavaScript — limit becomes 20, then the cap 100 applies. -/
def effectiveLimit : Option Nat → Nat
  | none => 20
  | some l => min (if l = 0 then 20 else l) 100

/-- The WHERE clause built by `listPayments`: optional status equality
plus, when a cursor is given, `createdAt < cursor` (strict). -/
def matchesQuery (q : ListPaymentsQuery) (p : Payment) : Bool :=
  (match q.status with
   | none => true
   | some s => p.status == s) &&
  (match q.cursor with
   | none => true
   | some c => p.createdAt < c)

/-- The store query `Payment.findAll` with the built WHERE clause,
`createdAt DESC` ordering and a row limit. -/
def findAllDesc (store : List Payment) (q : ListPaymentsQuery) (lim : Nat) : List Payment :=
  (List.insertionSort createdDesc (store.filter (matchesQuery q))).take lim

/-- `PaymentService.listPayments`: requests `limit + 1` rows, keeps the
first `limit` as items, and sets `nextCursor` to the last item's
`createdAt` exactly when the extra row was present and the page is
nonempty (a present `createdAt` always renders as a non-empty, hence
truthy, ISO string, so the final `nextCursor && ...` spread reduces to
presence). -/
def listPayments (store : List Payment) (q : ListPaymentsQuery) : ListPaymentsResponse :=
  let limit := effectiveLimit q.limit
  let payments := findAllDesc store q (limit + 1)
  let items := (payments.take limit).map toListItem
  let nextCursor :=
    if payments.length > limit then items.getLast?.map (fun it => it.createdAt) else none
  { items := items, nextCursor := nextCursor }

theorem one_le_effectiveLimit (ol : Option Nat) : 1 ≤ effectiveLimit ol := by
  cases ol with
  | none => simp [effectiveLimit]
  | some l =>
    by_cases hl : l = 0
    · simp [effectiveLimit, hl]
    · simp only [effectiveLimit, hl, if_false]
      omega

/-- C8 counterexample: with a requested limit of 0 (which the claim caps
at `min 0 100 = 0`, i.e. an empty page), the code returns a non-empty
page for a one-payment store: `query.limit || 20` treats 0 as absent. -/
theorem listPayments_limit_zero_counterexample :
    ¬ ((listPayments [examplePayment]
        { status := none, limit := some 0, cursor := none }).items.length ≤ Nat.min 0 100) := by
  decide

theorem isSome_map_eq {α β : Type} (o : Option α) (f : α → β) :
    (o.map f).isSome = o.isSome := by
  cases o <;> rfl

/-- C8 amended: for every list query over a store whose payments carry
pairwise-distinct creation timestamps (the regime the cursor scheme is
designed for), the page is ordered strictly by creation timestamp
descending and consists of the top `limit` matching rows; the effective
limit is the requested limit capped at 100, with an absent — or zero,
treated as absent by `query.limit || 20` — limit defaulting to 20; a
cursor restricts the page to rows strictly earlier than the cursor; and
`nextCursor` is the creation timestamp of the last returned item exactly
when the store held more than `limit` matching rows. -/
theorem listPayments_pagination (store : List Payment) (q : ListPaymentsQuery)
    (hdist : store.Pairwise (fun a b => a.createdAt ≠ b.createdAt)) :
    List.Chain' (fun a b : ListItem => b.createdAt < a.createdAt) (listPayments store q).items
    ∧ (listPayments store q).items.length =
        min (effectiveLimit q.limit) (store.filter (matchesQuery q)).length
    ∧ (q.limit = none → effectiveLimit q.limit = 20)
    ∧ (∀ l, q.limit = some l → 0 < l → effectiveLimit q.limit = min l 100)
    ∧ (∀ it ∈ (listPayments store q).items, ∀ c, q.cursor = some c → it.createdAt < c)
    ∧ ((listPayments store q).nextCursor.isSome ↔
        effectiveLimit q.limit < (store.filter (matchesQuery q)).length)
    ∧ (∀ t, (listPayments store q).nextCursor = some t →
        ∃ it, (listPayments store q).items.getLast? = some it ∧ it.createdAt = t)
    ∧ (listPayments store q).items.map (fun it => it.createdAt) =
        ((List.insertionSort createdDesc (store.filter (matchesQuery q))).map
          (fun p => p.createdAt)).take (effectiveLimit q.limit) := by
  have hperm : (List.insertionSort createdDesc (store.filter (matchesQuery q))).Perm
      (store.filter (matchesQuery q)) := List.perm_insertionSort createdDesc _
  have hsorted : (List.insertionSort createdDesc (store.filter (matchesQuery q))).Pairwise
      createdDesc := List.sorted_insertionSort createdDesc _
  have hdsorted : (List.insertionSort createdDesc (store.filter (matchesQuery q))).Pairwise
      (fun a b => a.createdAt ≠ b.createdAt) :=
    (hperm.pairwise_iff (fun h => Ne.symm h)).mpr (hdist.filter _)
  have hstrict : (List.insertionSort createdDesc (store.filter (matchesQuery q))).Pairwise
      (fun a b => b.createdAt < a.createdAt) :=
    (hsorted.and hdsorted).imp (fun hab => Nat.lt_of_le_of_ne hab.1 (Ne.symm hab.2))
  have hitems : (listPayments store q).items =
      ((List.insertionSort createdDesc (store.filter (matchesQuery q))).take
        (effectiveLimit q.limit)).map toListItem := by
    simp only [listPayments, findAllDesc, List.take_take]
    rw [show min (effectiveLimit q.limit) (effectiveLimit q.limit + 1) =
      effectiveLimit q.limit from by omega]
  have hplen : (findAllDesc store q (effectiveLimit q.limit + 1)).length =
      min (effectiveLimit q.limit + 1) (store.filter (matchesQuery q)).length := by
    simp only [findAllDesc, List.length_take, hperm.length_eq]
  have hilen : (listPayments store q).items.length =
      min (effectiveLimit q.limit) (store.filter (matchesQuery q)).length := by
    rw [hitems]
    simp only [List.length_map, List.length_take, hperm.length_eq]
  have hnext : (listPayments store q).nextCursor =
      if (findAllDesc store q (effectiveLimit q.limit + 1)).length > effectiveLimit q.limit
      then (listPayments store q).items.getLast?.map (fun it => it.createdAt)
      else none := rfl
  have hcond : ((findAllDesc store q (effectiveLimit q.limit + 1)).length >
      effectiveLimit q.limit) ↔
      effectiveLimit q.limit < (store.filter (matchesQuery q)).length := by
    rw [hplen]
    omega
  refine ⟨?_, hilen, ?_, ?_, ?_, ?_, ?_, ?_⟩
  · rw [hitems]
    exact (List.pairwise_map.mpr
      ((hstrict.sublist (List.take_sublist _ _)).imp (fun h => h))).chain'
  · intro hnone
    simp [effectiveLimit, hnone]
  · intro l hl hlpos
    have hl0 : ¬ (l = 0) := by omega
    simp [effectiveLimit, hl, hl0]
  · intro it hit c hc
    rw [hitems] at hit
    rcases List.mem_map.mp hit with ⟨p, hp, hpit⟩
    have hmem : p ∈ store.filter (matchesQuery q) :=
      hperm.mem_iff.mp (List.take_subset _ _ hp)
    have hm : matchesQuery q p = true := (List.mem_filter.mp hmem).2
    simp only [matchesQuery, hc, Bool.and_eq_true, decide_eq_true_eq] at hm
    rw [← hpit]
    exact hm.2
  · rw [hnext]
    by_cases hc : (findAllDesc store q (effectiveLimit q.limit + 1)).length >
        effectiveLimit q.limit
    · rw [if_pos hc]
      have hlt : effectiveLimit q.limit < (store.filter (matchesQuery q)).length :=
        hcond.mp hc
      have hne : (listPayments store q).items ≠ [] := by
        refine List.ne_nil_of_length_pos ?_
        rw [hilen]
        have := one_le_effectiveLimit q.limit
        omega
      rw [isSome_map_eq]
      constructor
      · intro _
        exact hlt
      · intro _
        exact List.getLast?_isSome.mpr hne
    · rw [if_neg hc]
      constructor
      · intro h
        exact absurd h (by simp)
      · intro hlt
        exact absurd (hcond.mpr hlt) hc
  · intro t ht
    rw [hnext] at ht
    by_cases hc : (findAllDesc store q (effectiveLimit q.limit + 1)).length >
        effectiveLimit q.limit
    · rw [if_pos hc] at ht
      rcases Option.map_eq_some'.mp ht with ⟨it, hit, hft⟩
      exact ⟨it, hit, hft⟩
    · rw [if_neg hc] at ht
      exact absurd ht (by simp)
  · rw [hitems, List.map_map, List.map_take]
    rfl

/-- Witness for the amended C8 theorem: the default query against a
one-payment store returns a page of length min 20 1 = 1. -/
theorem listPayments_pagination_witness :
    (listPayments [examplePayment]
        { status := none, limit := none, cursor := none }).items.length =
      min (effectiveLimit none)
        ([examplePayment].filter
          (matchesQuery { status := none, limit := none, cursor := none })).length :=
  (listPayments_pagination [examplePayment]
    { status := none, limit := none, cursor := none } (by simp)).2.1
